import Mathlib

/-!
Verification of the buddy-system heap allocator in
`src/lib/sos_alloc/src/buddy/mod.rs`.

The allocator manipulates raw memory: free blocks hold an intrusive header
(`Free { next: RawLink<Free> }`) written into their own first bytes.  We model
raw memory as a total map from block addresses (natural numbers) to the
next-link stored there, a `RawLink` being an optional address.  Free lists,
`push`/`pop`/`remove`, and the allocator's constructor and size/order
computations are translated directly from the Rust source; the arithmetic
helpers of `buddy/math.rs` and the crate-level `PAGE_SIZE` and header size,
whose sources are not available, are modelled from the specification.
-/

/-- Modelled from the spec: `PAGE_SIZE`, referenced by the source as
`::PAGE_SIZE` but defined outside the available files.  The source's
alignment assertion message says "aligned on a 4k boundary", so the page
size is 4096 bytes. -/
def PAGE_SIZE : Nat := 4096

/-- Modelled from the spec: `mem::size_of::<Free>()`.  The free-block header
`Free` holds exactly one non-owning link (`RawLink<Free>`), a machine pointer,
so on the 64-bit target its size is 8 bytes. -/
def headerSize : Nat := 8

/-- Modelled from the spec: `log2(x)` of `buddy/math.rs` (file not available):
"exact base-2 logarithm, defined only for powers of two (otherwise a caller
precondition violation)".  Implemented as the usual floor base-2 logarithm by
repeated halving (fuel-indexed so it computes by kernel reduction); on powers
of two it is the exact logarithm, which is all the spec defines. -/
def log2_go : Nat → Nat → Nat
  | 0, _ => 0
  | fuel + 1, n => if 2 ≤ n then log2_go fuel (n / 2) + 1 else 0

/-- Modelled from the spec: see `log2_go`. -/
def log2 (n : Nat) : Nat := log2_go n n

/-- Modelled from the spec: `next_pow2(x)` of `buddy/math.rs` (file not
available): "smallest power of two ≥ x, defined for x ≥ 1".  The helper
doubles an accumulator, starting from 1, until it reaches `x`; the fuel `x`
always suffices, so the result is the smallest power of two ≥ x. -/
def np2_go (x : Nat) : Nat → Nat → Nat
  | 0, p => p
  | fuel + 1, p => if x ≤ p then p else np2_go x fuel (2 * p)

/-- Modelled from the spec: see `np2_go`. -/
def next_pow2 (x : Nat) : Nat := np2_go x x 1

/-- Modelled from the spec: `is_pow2(x)` of `buddy/math.rs` (file not
available): the "power-of-two test".  `x` is a power of two exactly when it
equals `2 ^ log2 x` (see `is_pow2_iff`). -/
def is_pow2 (x : Nat) : Bool := x == 2 ^ log2 x

/-- Raw memory, as seen by the free lists: at each block address, the
next-link of the `Free` header written there.  A `RawLink<Free>` is either
absent (`none`) or a pointer to another free block (`some addr`). -/
def Mem : Type := Nat → Option Nat

/-- `FreeList<'a>`: head link plus stored block count, from
`buddy/mod.rs` lines 18-23. -/
structure FreeList where
  head : Option Nat
  length : Nat
  deriving DecidableEq

/-- `FreeList::new()`: empty list. -/
def FreeList.new : FreeList := ⟨none, 0⟩

/-- `FreeList::push(block)`: writes a header at `block` whose next-link is
the previous head (`RawLink::some(head)` or `RawLink::none()`), makes `block`
the new head, and increments `length`. -/
def FreeList.push (s : FreeList) (mem : Mem) (block : Nat) : FreeList × Mem :=
  (⟨some block, s.length + 1⟩, fun a => if a = block then s.head else mem a)

/-- `FreeList::pop()`: takes the head; if present, the new head is the
popped block's next-link (`head.next.resolve_mut()`) and the popped address
is returned.  The stored `length` is not modified by the source. -/
def FreeList.pop (s : FreeList) (mem : Mem) : Option Nat × FreeList × Mem :=
  match s.head with
  | none => (none, s, mem)
  | some h => (some h, ⟨mem h, s.length⟩, mem)

/-- The loop body of `FreeList::remove(target_block)`: iterate over the
chain from the current link; on finding the target, execute
`*block_ptr = Free { next: block.next.take() }` — `take()` clears the
target's own next-link and the assignment writes the old link back — and
return `true`; if the chain ends, return `false`.  The Rust `for` loop has
no step bound; `fuel` bounds the traversal of the (finite) chain. -/
def removeFrom (mem : Mem) (target : Nat) : Option Nat → Nat → Bool × Mem
  | none, _ => (false, mem)
  | some _, 0 => (false, mem)
  | some a, fuel + 1 =>
      if a = target then
        let oldNext := mem a
        let mem1 : Mem := fun x => if x = a then none else mem x
        let mem2 : Mem := fun x => if x = a then oldNext else mem1 x
        (true, mem2)
      else removeFrom mem target (mem a) fuel

/-- `FreeList::remove(target_block)`: linear scan via `iter_mut`; the
source never assigns `self.head` or `self.length`, so the list struct is
returned unchanged and only the found block's header bytes are written. -/
def FreeList.remove (s : FreeList) (mem : Mem) (target : Nat) (fuel : Nat) :
    Bool × FreeList × Mem :=
  let r := removeFrom mem target s.head fuel
  (r.1, s, r.2)

/-- The chain of headers reachable from a link: `isChain mem h xs` says that
following next-links from `h` visits exactly the addresses `xs` and ends at
an absent link. -/
def isChain (mem : Mem) : Option Nat → List Nat → Prop
  | h, [] => h = none
  | h, a :: xs => h = some a ∧ isChain mem (mem a) xs

/-- `BuddyHeapAllocator<'a>`, from `buddy/mod.rs` lines 148-158. -/
structure BuddyHeapAllocator where
  start_addr : Nat
  free_lists : List FreeList
  heap_size : Nat
  min_block_size : Nat
  deriving DecidableEq

/-- `BuddyHeapAllocator::new(start_addr, free_lists, heap_size)`.  The five
`assert!`s are modelled as guards returning `none` (an assertion failure
aborts construction).  `min_block_size = heap_size >> (n_free_lists - 1)`.
The source ends with `// TODO: put first head block on appropriately-sized
freelist` and returns the struct without touching any free list or writing
any header. -/
def BuddyHeapAllocator.new (start_addr : Nat) (free_lists : List FreeList)
    (heap_size : Nat) : Option BuddyHeapAllocator :=
  let n := free_lists.length
  if start_addr = 0 then none
  else if n = 0 then none
  else if start_addr &&& (PAGE_SIZE - 1) ≠ 0 then none
  else
    let mbs := heap_size >>> (n - 1)
    if heap_size < mbs then none
    else if mbs < headerSize then none
    else some ⟨start_addr, free_lists, heap_size, mbs⟩

/-- `BuddyHeapAllocator::alloc_size(size, align)`: rejects a non-power-of-two
or over-page alignment, else rounds `max!(size, min_block_size, align)` up to
the next power of two and rejects it when it exceeds the heap size. -/
def BuddyHeapAllocator.alloc_size (a : BuddyHeapAllocator) (size align : Nat) :
    Option Nat :=
  if !(is_pow2 align) || align > PAGE_SIZE then none
  else
    let alloc_size := next_pow2 (max size (max a.min_block_size align))
    if alloc_size > a.heap_size then none
    else some alloc_size

/-- `BuddyHeapAllocator::alloc_order(size, align)`: maps `alloc_size` through
`s.log2() - self.min_block_size.log2()`. -/
def BuddyHeapAllocator.alloc_order (a : BuddyHeapAllocator) (size align : Nat) :
    Option Nat :=
  (a.alloc_size size align).map (fun s => log2 s - log2 a.min_block_size)

/-- A concrete allocator matching the spec's worked example: heap of size
1024 at base 4096 with five orders, so `min_block_size = 1024 >>> 4 = 64`. -/
def A0 : BuddyHeapAllocator :=
  ⟨4096, [FreeList.new, FreeList.new, FreeList.new, FreeList.new, FreeList.new],
   1024, 64⟩

/-- All-empty memory used by the concrete free-list scenarios. -/
def mem0 : Mem := fun _ => none

/-- Pushing one block at address 4096 onto an empty free list. -/
def demoPush : FreeList × Mem := FreeList.new.push mem0 4096

/-- Removing that same block: the failing input of the `remove` bug. -/
def demoRemove : Bool × FreeList × Mem := demoPush.1.remove demoPush.2 4096 2

/-! ### Arithmetic facts about the modelled helpers -/

theorem log2_go_pow (fuel : Nat) : ∀ k : Nat, k ≤ fuel → log2_go fuel (2 ^ k) = k := by
  induction fuel with
  | zero =>
      intro k hk
      interval_cases k
      rfl
  | succ f ih =>
      intro k hk
      cases k with
      | zero => simp [log2_go]
      | succ j =>
          have h2 : 2 ≤ 2 ^ (j + 1) :=
            Nat.le_self_pow (Nat.succ_ne_zero j) 2 |>.trans_eq rfl
          have hdiv : 2 ^ (j + 1) / 2 = 2 ^ j := by
            rw [Nat.pow_succ, Nat.mul_div_cancel _ (by norm_num)]
          simp only [log2_go, if_pos h2, hdiv]
          rw [ih j (Nat.lt_succ_iff.mp hk)]

theorem log2_pow (k : Nat) : log2 (2 ^ k) = k :=
  log2_go_pow (2 ^ k) k (Nat.lt_two_pow k).le

theorem is_pow2_iff (x : Nat) : is_pow2 x = true ↔ ∃ k, x = 2 ^ k := by
  constructor
  · intro h
    exact ⟨log2 x, by simpa [is_pow2] using h⟩
  · rintro ⟨k, rfl⟩
    simp [is_pow2, log2_pow]

theorem not_pow2_of_false {x : Nat} (h : is_pow2 x = false) : ¬∃ k, x = 2 ^ k := by
  intro he
  rw [(is_pow2_iff x).mpr he] at h
  simp at h

theorem np2_go_pow (x : Nat) : ∀ (fuel j : Nat), ∃ k, np2_go x fuel (2 ^ j) = 2 ^ k := by
  intro fuel
  induction fuel with
  | zero => exact fun j => ⟨j, rfl⟩
  | succ f ih =>
      intro j
      by_cases h : x ≤ 2 ^ j
      · exact ⟨j, by simp [np2_go, h]⟩
      · have hstep : 2 * 2 ^ j = 2 ^ (j + 1) := by ring
        have hrw : np2_go x (f + 1) (2 ^ j) = np2_go x f (2 ^ (j + 1)) := by
          rw [np2_go, if_neg h, hstep]
        rw [hrw]
        exact ih (j + 1)

theorem np2_pow (x : Nat) : ∃ k, next_pow2 x = 2 ^ k := by
  simpa [next_pow2] using np2_go_pow x x 0

theorem np2_go_ge (x : Nat) :
    ∀ (fuel p : Nat), x ≤ p * 2 ^ fuel → x ≤ np2_go x fuel p := by
  intro fuel
  induction fuel with
  | zero => intro p hp; simpa [np2_go] using hp
  | succ f ih =>
      intro p hp
      by_cases h : x ≤ p
      · rw [np2_go, if_pos h]
        exact h
      · have hp' : x ≤ 2 * p * 2 ^ f := by
          calc x ≤ p * 2 ^ (f + 1) := hp
          _ = 2 * p * 2 ^ f := by ring
        simpa [np2_go, h] using ih (2 * p) hp'

theorem np2_ge (x : Nat) : x ≤ next_pow2 x := by
  have := np2_go_ge x x 1 (by simpa using (Nat.lt_two_pow x).le)
  simpa [next_pow2] using this

/-! ### Characterization of `alloc_size` (helper lemmas) -/

theorem alloc_size_of_bad (a : BuddyHeapAllocator) (size align : Nat)
    (h : is_pow2 align = false ∨ PAGE_SIZE < align) :
    a.alloc_size size align = none := by
  rcases h with h | h
  · simp [BuddyHeapAllocator.alloc_size, h]
  · simp [BuddyHeapAllocator.alloc_size, h]

theorem alloc_size_of_good (a : BuddyHeapAllocator) (size align : Nat)
    (h1 : is_pow2 align = true) (h2 : align ≤ PAGE_SIZE) :
    a.alloc_size size align =
      if a.heap_size < next_pow2 (max size (max a.min_block_size align)) then none
      else some (next_pow2 (max size (max a.min_block_size align))) := by
  simp [BuddyHeapAllocator.alloc_size, h1, Nat.not_lt.mpr h2]

theorem alloc_size_some (a : BuddyHeapAllocator) (size align v : Nat)
    (h : a.alloc_size size align = some v) :
    v = next_pow2 (max size (max a.min_block_size align)) ∧
      v ≤ a.heap_size ∧ is_pow2 align = true ∧ align ≤ PAGE_SIZE := by
  by_cases h1 : is_pow2 align = true
  · by_cases h2 : align ≤ PAGE_SIZE
    · rw [alloc_size_of_good a size align h1 h2] at h
      by_cases h3 : a.heap_size < next_pow2 (max size (max a.min_block_size align))
      · rw [if_pos h3] at h
        exact absurd h (by simp)
      · rw [if_neg h3] at h
        have hv := Option.some.inj h
        exact ⟨hv.symm, hv ▸ Nat.not_lt.mp h3, h1, h2⟩
    · rw [alloc_size_of_bad a size align (Or.inr (Nat.not_le.mp h2))] at h
      exact absurd h (by simp)
  · have h1' : is_pow2 align = false := by simpa using h1
    rw [alloc_size_of_bad a size align (Or.inl h1')] at h
    exact absurd h (by simp)

theorem is_pow2_false_of_not {x : Nat} (h : ¬∃ k, x = 2 ^ k) : is_pow2 x = false := by
  cases hb : is_pow2 x
  · rfl
  · exact absurd ((is_pow2_iff x).mp hb) h

/-- C3: `alloc_size(size, align)` returns `none` when `align` is not a power
of two or exceeds the page size; otherwise it computes
`next_pow2 (max size (max min_block_size align))` and returns `none` when that
value exceeds `heap_size`, `some` of it otherwise. -/
theorem alloc_size_correct (a : BuddyHeapAllocator) (size align : Nat) :
    ((¬∃ k, align = 2 ^ k) ∨ PAGE_SIZE < align → a.alloc_size size align = none) ∧
    ((∃ k, align = 2 ^ k) → align ≤ PAGE_SIZE →
      a.alloc_size size align =
        if a.heap_size < next_pow2 (max size (max a.min_block_size align)) then none
        else some (next_pow2 (max size (max a.min_block_size align)))) := by
  constructor
  · rintro (h | h)
    · exact alloc_size_of_bad a size align (Or.inl (is_pow2_false_of_not h))
    · exact alloc_size_of_bad a size align (Or.inr h)
  · intro h1 h2
    exact alloc_size_of_good a size align ((is_pow2_iff align).mpr h1) h2

/-- Witness for C3 on the spec's worked example: align 3 is rejected, a
104-byte request at align 8 rounds to 128, and a 2048-byte request exceeds
the 1024-byte heap. -/
theorem alloc_size_correct_witness :
    A0.alloc_size 8 3 = none ∧ A0.alloc_size 100 8 = some 128 ∧
      A0.alloc_size 2048 8 = none := by
  refine ⟨(alloc_size_correct A0 8 3).1 (Or.inl (not_pow2_of_false (by decide))), ?_, ?_⟩
  · rw [(alloc_size_correct A0 100 8).2 ⟨3, by norm_num⟩ (by decide)]
    decide
  · rw [(alloc_size_correct A0 2048 8).2 ⟨3, by norm_num⟩ (by decide)]
    decide

/-- C7: a request with `align = 3` (not a power of two) is rejected by the
alignment pre-check of `alloc_size` and `alloc_order` for every size,
including sizes that would fit the heap; the size is never consulted. -/
theorem align3_always_invalid (a : BuddyHeapAllocator) (size : Nat) :
    a.alloc_size size 3 = none ∧ a.alloc_order size 3 = none := by
  have h := alloc_size_of_bad a size 3 (Or.inl (by decide))
  exact ⟨h, by simp [BuddyHeapAllocator.alloc_order, h]⟩

/-- C4 counterexample: the claim says an invalid-request rejection yields a
result value different from a resource-exhaustion rejection.  On the worked
example, `(size 8, align 3)` is shape-invalid and `(size 2048, align 8)` is
exhaustion, yet `alloc_size` returns the same value (`none`) for both. -/
theorem alloc_failures_indistinguishable_cex :
    (¬∃ k, (3 : Nat) = 2 ^ k) ∧
    (∃ k, (8 : Nat) = 2 ^ k) ∧ (8 : Nat) ≤ PAGE_SIZE ∧
    A0.heap_size < next_pow2 (max 2048 (max A0.min_block_size 8)) ∧
    A0.alloc_size 8 3 = A0.alloc_size 2048 8 := by
  exact ⟨not_pow2_of_false (by decide), ⟨3, by norm_num⟩, by decide, by decide, by decide⟩

/-- C4 amended: both failure reasons are reported with the same value.  Any
shape-invalid request and any resource-exhausted request both make
`alloc_size` return `none`, so a caller cannot distinguish the two from the
result. -/
theorem alloc_failures_same_value (a : BuddyHeapAllocator) (s1 a1 s2 a2 : Nat)
    (h1 : (¬∃ k, a1 = 2 ^ k) ∨ PAGE_SIZE < a1)
    (h2 : ∃ k, a2 = 2 ^ k) (h3 : a2 ≤ PAGE_SIZE)
    (h4 : a.heap_size < next_pow2 (max s2 (max a.min_block_size a2))) :
    a.alloc_size s1 a1 = none ∧ a.alloc_size s2 a2 = none ∧
      a.alloc_size s1 a1 = a.alloc_size s2 a2 := by
  have e1 : a.alloc_size s1 a1 = none := by
    rcases h1 with h | h
    · exact alloc_size_of_bad a s1 a1 (Or.inl (is_pow2_false_of_not h))
    · exact alloc_size_of_bad a s1 a1 (Or.inr h)
  have e2 : a.alloc_size s2 a2 = none := by
    rw [alloc_size_of_good a s2 a2 ((is_pow2_iff a2).mpr h2) h3, if_pos h4]
  exact ⟨e1, e2, e1.trans e2.symm⟩

/-- Witness for the amended C4 at the concrete inputs of the counterexample. -/
theorem alloc_failures_same_value_witness :
    A0.alloc_size 8 3 = none ∧ A0.alloc_size 2048 8 = none ∧
      A0.alloc_size 8 3 = A0.alloc_size 2048 8 :=
  alloc_failures_same_value A0 8 3 2048 8
    (Or.inl (not_pow2_of_false (by decide))) ⟨3, by norm_num⟩ (by decide) (by decide)

/-- C5 counterexample: `new` succeeds on a heap size of 24 bytes, which is
not a power of two (base 4096, one free list, so `min_block_size = 24`,
which passes every assertion in the source). -/
theorem new_accepts_non_pow2_heap :
    (¬∃ k, (24 : Nat) = 2 ^ k) ∧
      (BuddyHeapAllocator.new 4096 [FreeList.new] 24).isSome = true :=
  ⟨not_pow2_of_false (by decide), by decide⟩

/-- C5 amended: `new` succeeds exactly when its five assertions hold — the
start address is non-null and page-aligned, there is at least one free list,
the heap holds at least one minimum-size block, and the minimum block fits a
header.  No power-of-two condition on `heap_size` is checked. -/
theorem new_validation_characterization (start heap : Nat) (ls : List FreeList) :
    (BuddyHeapAllocator.new start ls heap).isSome = true ↔
      (start ≠ 0 ∧ ls.length ≠ 0 ∧ start &&& (PAGE_SIZE - 1) = 0 ∧
       heap >>> (ls.length - 1) ≤ heap ∧
       headerSize ≤ heap >>> (ls.length - 1)) := by
  simp only [BuddyHeapAllocator.new]
  split_ifs with hA hB hC hD hE
  · simp [hA]
  · simp [hB]
  · simp only [Option.isSome_none, Bool.false_eq_true, false_iff]
    intro h
    exact hC h.2.2.1
  · simp only [Option.isSome_none, Bool.false_eq_true, false_iff]
    intro h
    exact absurd h.2.2.2.1 (Nat.not_le.mpr hD)
  · simp only [Option.isSome_none, Bool.false_eq_true, false_iff]
    intro h
    exact absurd h.2.2.2.2 (Nat.not_le.mpr hE)
  · simp only [Option.isSome_some, true_iff]
    exact ⟨hA, hB, Decidable.not_not.mp hC, Nat.not_lt.mp hD, Nat.not_lt.mp hE⟩

/-- C6: under the spec's data-model invariant that `min_block_size` is a
power of two, whenever `alloc_order` returns `some k`, shifting
`min_block_size` left by `k` recovers exactly the size returned by
`alloc_size`, `k` is `log2` of that size minus `log2 min_block_size`, and
`alloc_order` returns `none` exactly when `alloc_size` does. -/
theorem alloc_order_size_class (a : BuddyHeapAllocator) (size align m : Nat)
    (hm : a.min_block_size = 2 ^ m) :
    (∀ k, a.alloc_order size align = some k →
       ∃ v, a.alloc_size size align = some v ∧
         a.min_block_size <<< k = v ∧ k = log2 v - log2 a.min_block_size) ∧
    (a.alloc_order size align = none ↔ a.alloc_size size align = none) := by
  constructor
  · intro k hk
    unfold BuddyHeapAllocator.alloc_order at hk
    rcases Option.map_eq_some'.mp hk with ⟨v, hv, hkv⟩
    refine ⟨v, hv, ?_, hkv.symm⟩
    obtain ⟨hve, hheap, hp2, hple⟩ := alloc_size_some a size align v hv
    obtain ⟨c, hc⟩ := np2_pow (max size (max a.min_block_size align))
    have hvc : v = 2 ^ c := hve.trans hc
    have hage : a.min_block_size ≤ v := by
      calc a.min_block_size ≤ max size (max a.min_block_size align) :=
            le_max_of_le_right (le_max_left _ _)
        _ ≤ next_pow2 (max size (max a.min_block_size align)) := np2_ge _
        _ = v := hve.symm
    have hmc : m ≤ c := by
      have hpow : (2 : Nat) ^ m ≤ 2 ^ c := by
        rw [← hm, ← hvc]
        exact hage
      exact (Nat.pow_le_pow_iff_right (by norm_num)).mp hpow
    have hkcm : k = c - m := by
      rw [← hkv, hvc, hm, log2_pow, log2_pow]
    rw [hkcm, hm, hvc, Nat.shiftLeft_eq, ← Nat.pow_add, Nat.add_sub_cancel' hmc]
  · unfold BuddyHeapAllocator.alloc_order
    simp

/-- Witness for C6: on the worked-example allocator (`min_block_size = 64 =
2^6`), instantiated at the request `(size 100, align 8)`. -/
theorem alloc_order_size_class_witness :
    A0.min_block_size = 2 ^ 6 ∧
    ((∀ k, A0.alloc_order 100 8 = some k →
       ∃ v, A0.alloc_size 100 8 = some v ∧
         A0.min_block_size <<< k = v ∧ k = log2 v - log2 A0.min_block_size) ∧
    (A0.alloc_order 100 8 = none ↔ A0.alloc_size 100 8 = none)) :=
  ⟨by decide, alloc_order_size_class A0 100 8 6 (by decide)⟩

/-- C1 (code bug): `new` returns the free lists exactly as the caller passed
them — the `TODO: put first head block on appropriately-sized freelist` step
is missing — so on a fresh construction every free list, including the
top-order one, is still empty instead of holding the single whole-heap
block. -/
theorem new_leaves_free_lists_unseeded :
    ∃ A, BuddyHeapAllocator.new 4096 [FreeList.new] 4096 = some A ∧
      A.free_lists = [FreeList.new] ∧
      A.free_lists.all (fun l => l.head == none && l.length == 0) = true :=
  ⟨⟨4096, [FreeList.new], 4096, 4096⟩, by decide, by decide, by decide⟩

/-- C2 (code bug): on a singleton free list holding the block at 4096,
`remove 4096` returns `true`, yet the head still points at 4096, the length
is still 1, and the chain from the head still visits 4096 — the target was
never unlinked, because the found branch writes the target's own header back
to itself instead of updating its predecessor. -/
theorem remove_leaves_target_linked :
    demoRemove.1 = true ∧
    demoRemove.2.1.head = some 4096 ∧
    demoRemove.2.1.length = 1 ∧
    demoRemove.2.2 4096 = none ∧
    isChain demoRemove.2.2 demoRemove.2.1.head [4096] :=
  ⟨rfl, rfl, rfl, rfl, rfl, rfl⟩

theorem removeFrom_not_found (mem : Mem) (target : Nat) :
    ∀ (xs : List Nat) (h : Option Nat) (fuel : Nat),
      isChain mem h xs → target ∉ xs → xs.length ≤ fuel →
      removeFrom mem target h fuel = (false, mem) := by
  intro xs
  induction xs with
  | nil =>
      intro h fuel hc _ _
      rw [show h = none from hc]
      cases fuel <;> simp [removeFrom]
  | cons a xs ih =>
      intro h fuel hc hmem hfuel
      obtain ⟨hh, hc'⟩ := hc
      subst hh
      cases fuel with
      | zero => simp at hfuel
      | succ f =>
          have hne : a ≠ target := fun he => hmem (he ▸ List.mem_cons_self a xs)
          rw [removeFrom, if_neg hne]
          exact ih (mem a) f hc' (fun hx => hmem (List.mem_cons_of_mem a hx))
            (Nat.succ_le_succ_iff.mp hfuel)

/-- C8: removing an address that is not in the chain returns `false` and
leaves the head, the stored length, and the whole memory unchanged. -/
theorem remove_absent_noop (s : FreeList) (mem : Mem) (target fuel : Nat)
    (xs : List Nat) (hc : isChain mem s.head xs) (hn : target ∉ xs)
    (hf : xs.length ≤ fuel) :
    s.remove mem target fuel = (false, s, mem) := by
  unfold FreeList.remove
  rw [removeFrom_not_found mem target xs s.head fuel hc hn hf]

/-- Witness for C8: removing the absent address 8192 from the singleton list
holding 4096 is a no-op returning `false`. -/
theorem remove_absent_noop_witness :
    demoPush.1.remove demoPush.2 8192 1 = (false, demoPush.1, demoPush.2) :=
  remove_absent_noop demoPush.1 demoPush.2 8192 1 [4096] ⟨rfl, rfl⟩ (by decide)
    (by decide)

/-- C9: `push b` makes `b` the head, writes `b`'s header link to the previous
head, and increments the count; a subsequent `pop` returns `b` and restores
the previous head; `pop` on an empty list returns `none`. -/
theorem push_pop_lifo (s : FreeList) (mem : Mem) (b : Nat) :
    (s.push mem b).1.head = some b ∧
    (s.push mem b).2 b = s.head ∧
    (s.push mem b).1.length = s.length + 1 ∧
    (s.push mem b).1.pop (s.push mem b).2 =
      (some b, ⟨s.head, s.length + 1⟩, (s.push mem b).2) ∧
    FreeList.new.pop mem = (none, FreeList.new, mem) := by
  refine ⟨rfl, by simp [FreeList.push], rfl, ?_, rfl⟩
  simp [FreeList.push, FreeList.pop]

/-- C10: `push` increments the stored length by one while `pop` and `remove`
leave it unchanged; hence after a successful `pop` on a well-formed list the
stored length exceeds the number of blocks reachable from the new head by
one. -/
theorem length_only_increments (s : FreeList) (mem : Mem)
    (b target fuel a : Nat) (rest : List Nat)
    (hc : isChain mem s.head (a :: rest)) (hlen : s.length = rest.length + 1) :
    (s.push mem b).1.length = s.length + 1 ∧
    (s.pop mem).2.1.length = s.length ∧
    (s.remove mem target fuel).2.1.length = s.length ∧
    s.pop mem = (some a, ⟨mem a, s.length⟩, mem) ∧
    isChain mem (mem a) rest ∧
    (s.pop mem).2.1.length = rest.length + 1 := by
  obtain ⟨hh, hc'⟩ := hc
  have hpop : s.pop mem = (some a, ⟨mem a, s.length⟩, mem) := by
    simp [FreeList.pop, hh]
  refine ⟨rfl, by rw [hpop], rfl, hpop, hc', ?_⟩
  rw [hpop]
  exact hlen

/-- Witness for C10 on the singleton list holding the block at 4096. -/
theorem length_only_increments_witness :
    (demoPush.1.push demoPush.2 8192).1.length = demoPush.1.length + 1 ∧
    (demoPush.1.pop demoPush.2).2.1.length = demoPush.1.length ∧
    (demoPush.1.remove demoPush.2 0 1).2.1.length = demoPush.1.length ∧
    demoPush.1.pop demoPush.2 =
      (some 4096, ⟨demoPush.2 4096, demoPush.1.length⟩, demoPush.2) ∧
    isChain demoPush.2 (demoPush.2 4096) ([] : List Nat) ∧
    (demoPush.1.pop demoPush.2).2.1.length = ([] : List Nat).length + 1 :=
  length_only_increments demoPush.1 demoPush.2 8192 0 1 4096 [] ⟨rfl, rfl⟩ rfl
